import Mathlib

/-!
Verification of the marian-tensorboard incremental log-tailing and
log-parsing core (`src/marian_tensorboard/marian_tensorboard.py`).

The development shallowly embeds the Python source:

* `LogFileReader` (the Tailing Reader): its mutable state `(last_update,
  last_line)` becomes the structure `TailPos`; the generator `read()` becomes
  the pure function `read` returning the yielded lines together with the
  state left behind (which `_save_state` persists).  File contents are lists
  of lines; modification times are modeled as integers (the code compares
  them only with `>` and `>=`).
* `MarianLogParser`: the four regular expressions are embedded by a small
  backtracking regex engine (`mre`) whose constructors cover exactly the
  constructs the source patterns use (literals, character classes, greedy
  `+`, lazy `.*?`, greedy `(...)?`, capture groups) with Python's
  leftmost-search and backtracking-preference semantics.  `float`/`int`
  conversions become `pyFloat`/`pyInt` (numbers are modeled as exact
  rationals), `str.split()` becomes `pySplit`, and
  `calendar.timegm(time.strptime(...))` becomes `wall_time`.
  `parse_line` returns the events yielded before any exception, the new
  running total, and whether an exception was raised.
* `ConvertionJob.run`'s inner per-pass loop (parse every line of one read
  pass, with exceptions propagating) becomes `runPass`, and the unit-test
  style line-by-line feeding of one parser instance becomes `feed`.
* `LogFileReader._load_state` becomes `load_state` over an abstract
  checkpoint state (missing file / unpicklable data / a valid pair).
-/

/-! ## Tailing Reader (`LogFileReader`) -/

/-- The reader's persisted position: `self.last_update` (file modification
time) and `self.last_line` (index of the last processed line). -/
structure TailPos where
  last_update : Int
  last_line : Nat
deriving DecidableEq, Repr

/-- `LogFileReader._need_update`: `False` iff `last_update > 0` and
`last_update >= st_mtime`. -/
def need_update (s : TailPos) (mtime : Int) : Bool :=
  if s.last_update > 0 ∧ s.last_update ≥ mtime then false else true

/-- The body of the `for line_no, line in enumerate(logs)` loop in
`LogFileReader.read`: yield the line when `self.last_line and self.last_line
< line_no`, then raise `last_line` to `line_no` if larger, then raise
`last_update` to the observed mtime if larger. -/
def readLoop (m : Int) : Nat → TailPos → List String → List String × TailPos
  | _, s, [] => ([], s)
  | i, s, line :: rest =>
    let doYield := s.last_line ≠ 0 ∧ s.last_line < i
    let s' : TailPos :=
      ⟨if m > s.last_update then m else s.last_update,
       if i > s.last_line then i else s.last_line⟩
    let r := readLoop m (i + 1) s' rest
    (if doYield then line :: r.1 else r.1, r.2)

/-- `LogFileReader.read`: a no-op when `_need_update` is false, otherwise one
enumerated pass over the file's lines.  The returned `TailPos` is the state
the reader keeps (and `_save_state` persists) after the pass. -/
def LogFileReader.read (s : TailPos) (lines : List String) (mtime : Int) :
    List String × TailPos :=
  if need_update s mtime then readLoop mtime 0 s lines else ([], s)

/-! ## Event Parser (`MarianLogParser`)

The source's four regular expressions use only: literal characters,
character classes, greedy `+` over a class, lazy `.*?`, one greedy optional
group, and capture groups.  The engine below implements exactly these with
Python's backtracking preference order (greedy prefers longer, lazy prefers
shorter, `(...)?` prefers present) and `re.search`'s leftmost-match rule. -/

/-- Abstract syntax of the regex fragment used by the source patterns. -/
inductive RE where
  | emp : RE
  | cls : (Char → Bool) → RE
  | seq : RE → RE → RE
  | grp : Nat → RE → RE
  | plus : (Char → Bool) → RE
  | star : (Char → Bool) → RE
  | opt : RE → RE

/-- Captured groups: group number paired with the matched substring.  Each
group of the source patterns participates at most once in a match, so a
first-key lookup reproduces Python's `m.group(i)`. -/
def Caps := List (Nat × String)

/-- Greedy iteration over a character class: prefer consuming another
matching character, fall back to the continuation on failure. -/
def gstar (p : Char → Bool) : Nat → List Char → Caps →
    (List Char → Caps → Option Caps) → Option Caps
  | 0, s, cp, k => k s cp
  | fuel + 1, s, cp, k =>
    match s with
    | [] => k [] cp
    | c :: t =>
      if p c then
        match gstar p fuel t cp k with
        | some r => some r
        | none => k (c :: t) cp
      else k (c :: t) cp

/-- Lazy iteration over a character class (`.*?`): prefer the continuation,
consume another matching character only on failure. -/
def lstar (p : Char → Bool) : Nat → List Char → Caps →
    (List Char → Caps → Option Caps) → Option Caps
  | 0, s, cp, k => k s cp
  | fuel + 1, s, cp, k =>
    match k s cp with
    | some r => some r
    | none =>
      match s with
      | [] => none
      | c :: t => if p c then lstar p fuel t cp k else none

/-- The backtracking matcher in continuation-passing style.  `fuel` bounds
star iterations; every use passes a fuel larger than the input length, and
each iteration of the stars in the source patterns consumes one character,
so the bound is never hit. -/
def mre (fuel : Nat) : RE → List Char → Caps →
    (List Char → Caps → Option Caps) → Option Caps
  | .emp, s, cp, k => k s cp
  | .cls p, s, cp, k =>
    match s with
    | [] => none
    | c :: t => if p c then k t cp else none
  | .seq a b, s, cp, k =>
    mre fuel a s cp (fun s2 cp2 => mre fuel b s2 cp2 k)
  | .grp i r, s, cp, k =>
    mre fuel r s cp
      (fun s2 cp2 => k s2 ((i, String.mk (s.take (s.length - s2.length))) :: cp2))
  | .plus p, s, cp, k =>
    match s with
    | [] => none
    | c :: t => if p c then gstar p fuel t cp k else none
  | .star p, s, cp, k => lstar p fuel s cp k
  | .opt r, s, cp, k =>
    match mre fuel r s cp k with
    | some res => some res
    | none => k s cp

/-- `re.search`: try a full match at each start position, left to right. -/
def research (r : RE) : List Char → Option Caps
  | [] => mre 1 r [] [] (fun _ cp => some cp)
  | c :: t =>
    match mre (t.length + 2) r (c :: t) [] (fun _ cp => some cp) with
    | some cp => some cp
    | none => research r t

/-- `m.group(i)`: `none` when the group did not participate in the match. -/
def getGrp (cp : Caps) (i : Nat) : Option String :=
  (List.find? (fun x => x.1 == i) cp).map (fun x => x.2)

/-- `m.group(i)` for a group that always participates when the pattern
matches. -/
def getGrpD (cp : Caps) (i : Nat) : String := (getGrp cp i).getD ""

/-- Concatenation of regex pieces. -/
def rcat (l : List RE) : RE := l.foldr RE.seq RE.emp

/-- A literal string. -/
def lit (str : String) : RE :=
  rcat (str.toList.map (fun c => RE.cls (fun d => d == c)))

/-- Python `\s` (the source logs are ASCII). -/
def isWsC (c : Char) : Bool :=
  c == ' ' || c == '\t' || c == '\n' || c == '\r' ||
  c == '\x0b' || c == '\x0c'

/-- `\d` / `[0-9]`. -/
def isDigitC (c : Char) : Bool := 48 ≤ c.toNat && c.toNat ≤ 57

/-- `[\d.]`. -/
def isDigitDot (c : Char) : Bool := isDigitC c || c == '.'

/-- `[0-9|,]` (the `sentences` group). -/
def isDigitBarComma (c : Char) : Bool := isDigitC c || c == '|' || c == ','

/-- `[A-z|-]` — note `A-z` is the ASCII range 65–122, which also contains
the characters between `Z` and `a` (e.g. `_`). -/
def isAZlow (c : Char) : Bool :=
  (65 ≤ c.toNat && c.toNat ≤ 122) || c == '|' || c == '-'

/-- `[a-z|-]` (the validation `metric` group). -/
def isLowBar (c : Char) : Bool :=
  (97 ≤ c.toNat && c.toNat ≤ 122) || c == '|' || c == '-'

/-- `[\d\.|A-z]` (the `config_value` group). -/
def isConfigValC (c : Char) : Bool :=
  isDigitC c || c == '.' || c == '|' || (65 ≤ c.toNat && c.toNat ≤ 122)

/-- `.` without `re.DOTALL`: any character but a newline. -/
def isDotAny (c : Char) : Bool := c != '\n'

/-- `[\s]+`. -/
def wsP : RE := .plus isWsC

/-- `[\s]`. -/
def ws1 : RE := .cls isWsC

/-- `self.train_re`:
`Ep\.[\s]+(?P<epoch>[\d.]+)[\s]+:[\s]Up\.[\s](?P<updates>[\d]+)[\s]+:[\s]`
`Sen\.[\s](?P<sentences>[0-9|,]+).*?(?P<metric>[A-z|-]+)[\s]+(?P<value>[\d\.]+)`
`.*?L\.r\.[\s](?P<learnrate>[\d\.]+e-[\d]+)` with groups numbered 1–6. -/
def train_re : RE := rcat
  [lit "Ep.", wsP, .grp 1 (.plus isDigitDot), wsP, lit ":", ws1,
   lit "Up.", ws1, .grp 2 (.plus isDigitC), wsP, lit ":", ws1,
   lit "Sen.", ws1, .grp 3 (.plus isDigitBarComma),
   .star isDotAny, .grp 4 (.plus isAZlow), wsP, .grp 5 (.plus isDigitDot),
   .star isDotAny, lit "L.r.", ws1,
   .grp 6 (rcat [.plus isDigitDot, lit "e-", .plus isDigitC])]

/-- `self.valid_re`:
`\[valid\][\s]+Ep\.[\s]+(?P<epoch>[\d.]+)[\s]+:[\s]Up\.[\s](?P<updates>[\d]+)`
`.*?(?P<metric>[a-z|-]+)[\s]+:[\s]+(?P<value>[\d\.]+)`
`([\s]+:[\s]stalled[\s](?P<stalled>[\d]+))?` with groups numbered 1–6
(5 is the optional unnamed group, 6 is `stalled`). -/
def valid_re : RE := rcat
  [lit "[valid]", wsP, lit "Ep.", wsP, .grp 1 (.plus isDigitDot), wsP,
   lit ":", ws1, lit "Up.", ws1, .grp 2 (.plus isDigitC),
   .star isDotAny, .grp 3 (.plus isLowBar), wsP, lit ":", wsP,
   .grp 4 (.plus isDigitDot),
   .opt (.grp 5 (rcat [wsP, lit ":", ws1, lit "stalled", ws1,
                       .grp 6 (.plus isDigitC)]))]

/-- `self.config_re`:
`\[config\].*?(?P<config_name>[A-z|-]+):[\s]+(?P<config_value>[\d\.|A-z]+)`. -/
def config_re : RE := rcat
  [lit "[config]", .star isDotAny, .grp 1 (.plus isAZlow), lit ":", wsP,
   .grp 2 (.plus isConfigValC)]

/-- `self.total_sentences_re`: `Seen[\s]+(?P<epoch_sentence>[\d.]+)`. -/
def total_sentences_re : RE := rcat
  [lit "Seen", wsP, .grp 1 (.plus isDigitDot)]

/-! ### Python number, split and timestamp semantics -/

/-- Value of a digit string. -/
def digitsVal (cs : List Char) : Nat :=
  cs.foldl (fun n c => 10 * n + (c.toNat - 48)) 0

/-- The exponent part of a Python float literal (after the `e`/`E`). -/
def pyExp (t : List Char) : Option Int :=
  let esgn : Int × List Char :=
    match t with
    | '+' :: u => (1, u)
    | '-' :: u => (-1, u)
    | _ => (1, t)
  let ed := esgn.2.takeWhile isDigitC
  let rest := esgn.2.dropWhile isDigitC
  if ed = [] ∨ rest ≠ [] then none else some (esgn.1 * (digitsVal ed : Int))

/-- Python `float(s)` on the strings the group patterns can produce
(digits, `.`, `e`/`E`, signs; anything else returns `none` = `ValueError`).
The value is modeled as the exact decimal rational
`sign * ip.fp * 10^exp`, assembled with `mkRat`. -/
def pyFloat (s : String) : Option Rat :=
  let cs := s.toList
  let sgncs : Int × List Char :=
    match cs with
    | '+' :: t => (1, t)
    | '-' :: t => (-1, t)
    | _ => (1, cs)
  let ip := sgncs.2.takeWhile isDigitC
  let r1 := sgncs.2.dropWhile isDigitC
  let fpr2 : List Char × List Char :=
    match r1 with
    | '.' :: t => (t.takeWhile isDigitC, t.dropWhile isDigitC)
    | _ => ([], r1)
  let fp := fpr2.1
  let expPart : Option Int :=
    match fpr2.2 with
    | [] => some 0
    | 'e' :: t => pyExp t
    | 'E' :: t => pyExp t
    | _ => none
  if ip = [] ∧ fp = [] then none
  else
    match expPart with
    | none => none
    | some e =>
      let num : Int :=
        sgncs.1 * ((digitsVal ip * 10 ^ fp.length + digitsVal fp : Nat) : Int)
      let den : Nat := 10 ^ fp.length
      if 0 ≤ e then some (mkRat (num * ((10 ^ e.toNat : Nat) : Int)) den)
      else some (mkRat num (den * 10 ^ (-e).toNat))

/-- Python `int(s)`: an optional sign followed by digits only. -/
def pyInt (s : String) : Option Int :=
  let cs := s.toList
  let sgncs : Int × List Char :=
    match cs with
    | '+' :: t => (1, t)
    | '-' :: t => (-1, t)
    | _ => (1, cs)
  let ds := sgncs.2.takeWhile isDigitC
  let rest := sgncs.2.dropWhile isDigitC
  if ds = [] ∨ rest ≠ [] then none else some (sgncs.1 * (digitsVal ds : Int))

/-- `str(...).replace(",", "")` on the `sentences` group. -/
def stripCommas (s : String) : String :=
  String.mk (s.toList.filter (fun c => c != ','))

/-- `str.split()` (no argument): split on whitespace runs, no empty parts. -/
def pySplitAux : List Char → List Char → List String
  | [], acc => match acc with | [] => [] | _ => [String.mk acc.reverse]
  | c :: t, acc =>
    if isWsC c then
      match acc with
      | [] => pySplitAux t []
      | _ => String.mk acc.reverse :: pySplitAux t []
    else pySplitAux t (c :: acc)

/-- `line.split()`. -/
def pySplit (s : String) : List String := pySplitAux s.toList []

/-- Cumulative days before month `m` in a non-leap year. -/
def daysBeforeMonth (m : Nat) : Nat :=
  [0, 0, 31, 59, 90, 120, 151, 181, 212, 243, 273, 304, 334].getD m 0

/-- Gregorian leap year. -/
def isLeap (y : Nat) : Bool :=
  y % 4 == 0 && (y % 100 != 0 || y % 400 == 0)

/-- `datetime.date(y, m, 1).toordinal() + d - 1` (proleptic Gregorian
ordinal, day 1 = 0001-01-01). -/
def toOrdinal (y mo d : Nat) : Nat :=
  365 * (y - 1) + (y - 1) / 4 - (y - 1) / 100 + (y - 1) / 400
    + daysBeforeMonth mo + (if 2 < mo ∧ isLeap y then 1 else 0) + d

/-- A one- or two-digit numeric `strptime` field with its admissible range
(mirrors the alternation patterns `%m`, `%d`, `%H`, `%M`, `%S` compile to). -/
def parseField (cs : List Char) (lo hi : Nat) : Option (Nat × List Char) :=
  let ds := cs.takeWhile isDigitC
  let r := cs.dropWhile isDigitC
  match ds with
  | [d1] => if lo ≤ digitsVal [d1] then some (digitsVal [d1], r) else none
  | [d1, d2] =>
    if lo ≤ digitsVal [d1, d2] ∧ digitsVal [d1, d2] ≤ hi then
      some (digitsVal [d1, d2], r)
    else none
  | _ => none

/-- One-or-more whitespace (a space in a `strptime` format matches `\s+`). -/
def skipWs1 (cs : List Char) : Option (List Char) :=
  match cs with
  | c :: t => if isWsC c then some (t.dropWhile isWsC) else none
  | [] => none

/-- `time.strptime(s, "%Y-%m-%d %H:%M:%S")`: four-digit year, then month,
day, hour, minute, second fields with their ranges; the whole string must be
consumed.  Year 0 is rejected (as `datetime.date` would). -/
def parseDT (cs : List Char) :
    Option (Nat × Nat × Nat × Nat × Nat × Nat) :=
  match cs with
  | y1 :: y2 :: y3 :: y4 :: '-' :: r1 =>
    if isDigitC y1 && isDigitC y2 && isDigitC y3 && isDigitC y4 then
      let y := digitsVal [y1, y2, y3, y4]
      if y = 0 then none else
      match parseField r1 1 12 with
      | some (mo, r2) =>
        match r2 with
        | '-' :: r3 =>
          match parseField r3 1 31 with
          | some (d, r4) =>
            match skipWs1 r4 with
            | some r5 =>
              match parseField r5 0 23 with
              | some (h, r6) =>
                match r6 with
                | ':' :: r7 =>
                  match parseField r7 0 59 with
                  | some (mi, r8) =>
                    match r8 with
                    | ':' :: r9 =>
                      match parseField r9 0 61 with
                      | some (sec, r10) =>
                        if r10 = [] then some (y, mo, d, h, mi, sec) else none
                      | none => none
                    | _ => none
                  | none => none
                | _ => none
              | none => none
            | none => none
          | none => none
        | _ => none
      | none => none
    else none
  | _ => none

/-- `calendar.timegm` on the parsed struct (719163 is the ordinal of
1970-01-01). -/
def timegm (y mo d h mi s : Nat) : Int :=
  86400 * ((toOrdinal y mo d : Int) - 719163)
    + 3600 * (h : Int) + 60 * (mi : Int) + (s : Int)

/-- `MarianLogParser.wall_time`: strip a leading `[` and a trailing `]`
(`string[1:]` / `string[:-1]`), then `strptime` + `timegm`; `none` models
the `ValueError` the source lets escape. -/
def wall_time (s : String) : Option Int :=
  let cs0 := s.toList
  let cs1 := match cs0 with
    | '[' :: t => t
    | _ => cs0
  let cs2 := if cs1.getLast? = some ']' then cs1.dropLast else cs1
  match parseDT cs2 with
  | some (y, mo, d, h, mi, sec) => some (timegm y mo d h mi sec)
  | none => none

/-! ### `parse_line` -/

/-- An event value: numeric (scalar events; Python ints and floats are both
modeled as exact rationals) or a string (text events). -/
inductive Val where
  | num : Rat → Val
  | str : String → Val
deriving DecidableEq, Repr

/-- One tuple yielded by `parse_line`:
`(type, wall_time, update, metric, value)`. -/
structure Event where
  kind : String
  time : Option Int
  update : Option Int
  metric : String
  value : Val
deriving DecidableEq, Repr

/-- The data the validation branch extracts before yielding. -/
structure ValidData where
  wt : Int
  update : Int
  epoch : Rat
  metric : String
  value : Rat
  stalled : Int
deriving DecidableEq, Repr

/-- The data the training branch extracts before yielding. -/
structure TrainData where
  wt : Int
  update : Int
  epoch : Rat
  sentences : Int
  metric : String
  value : Rat
  learnrate : Rat
deriving DecidableEq, Repr

/-- The `config_re` branch: `search` returns only the first key/value pair;
no conversion in this branch can raise. -/
def configPair (line : String) : Option (String × String) :=
  match research config_re line.toList with
  | none => none
  | some caps => some (getGrpD caps 1, getGrpD caps 2)

/-- The events the `config_re` branch yields. -/
def configEvs (line : String) : List Event :=
  match configPair line with
  | some nv => [⟨"text", none, none, nv.1, .str nv.2⟩]
  | none => []

/-- The `valid_re` branch of `parse_line`: when the pattern matches, unpack
`_date, _time, *rest = line.split()`, convert `epoch`/`updates`/`value`/
`stalled` and compute `wall_time`; `.error ()` models any `ValueError`
raised before the first yield. -/
def validParse (line : String) : Except Unit (Option ValidData) :=
  match research valid_re line.toList with
  | none => .ok none
  | some caps =>
    match pySplit line with
    | d :: t :: _ =>
      match pyFloat (getGrpD caps 1), pyInt (getGrpD caps 2),
            pyFloat (getGrpD caps 4) with
      | some epoch, some update, some value =>
        match (match getGrp caps 6 with
               | none => some (0 : Int)
               | some s => pyInt s) with
        | some stalled =>
          match wall_time (d ++ " " ++ t) with
          | some wt => .ok (some ⟨wt, update, epoch, getGrpD caps 3, value, stalled⟩)
          | none => .error ()
        | none => .error ()
      | _, _, _ => .error ()
    | _ => .error ()

/-- The two scalar events the validation branch yields. -/
def validBuild : Option ValidData → List Event
  | none => []
  | some d =>
    [⟨"scalar", some d.wt, some d.update, "valid/" ++ d.metric, .num d.value⟩,
     ⟨"scalar", some d.wt, some d.update, "valid/" ++ d.metric ++ "_stalled",
      .num (d.stalled : Rat)⟩]

/-- The `train_re` branch of `parse_line`: convert `epoch`/`updates`/
`sentences` (commas stripped)/`value`/`learnrate` and compute `wall_time`. -/
def trainParse (line : String) : Except Unit (Option TrainData) :=
  match research train_re line.toList with
  | none => .ok none
  | some caps =>
    match pySplit line with
    | d :: t :: _ =>
      match pyFloat (getGrpD caps 1), pyInt (getGrpD caps 2),
            pyInt (stripCommas (getGrpD caps 3)), pyFloat (getGrpD caps 5),
            pyFloat (getGrpD caps 6) with
      | some epoch, some update, some sentences, some value, some learnrate =>
        match wall_time (d ++ " " ++ t) with
        | some wt =>
          .ok (some ⟨wt, update, epoch, sentences, getGrpD caps 4, value, learnrate⟩)
        | none => .error ()
      | _, _, _, _, _ => .error ()
    | _ => .error ()

/-- The five scalar events the training branch yields; `train/total_sent` is
the line's own sentence count plus the parser's running
`self.total_sentences`. -/
def trainBuild (od : Option TrainData) (total : Int) : List Event :=
  match od with
  | none => []
  | some d =>
    [⟨"scalar", some d.wt, some d.update, "train/epoch", .num d.epoch⟩,
     ⟨"scalar", some d.wt, some d.update, "train/" ++ d.metric, .num d.value⟩,
     ⟨"scalar", some d.wt, some d.update, "train/update_sent",
      .num (d.sentences : Rat)⟩,
     ⟨"scalar", some d.wt, some d.update, "train/total_sent",
      .num ((d.sentences + total : Int) : Rat)⟩,
     ⟨"scalar", some d.wt, some d.update, "train/learn_rate", .num d.learnrate⟩]

/-- The `total_sentences_re` branch: the amount added to
`self.total_sentences` (0 when the pattern does not match; `.error ()` when
`int(...)` raises on a group like `1.5`). -/
def seenParse (line : String) : Except Unit Int :=
  match research total_sentences_re line.toList with
  | none => .ok 0
  | some caps =>
    match pyInt (getGrpD caps 1) with
    | some n => .ok n
    | none => .error ()

/-- `MarianLogParser.parse_line`, with the running total threaded
explicitly: returns the tuples yielded before any exception, the new
running total, and whether an exception escaped.  The four branches run in
source order (config, valid, train, total-sentences); events yielded by
earlier branches are kept when a later branch raises, and the running total
is only updated by the final branch. -/
def parse_line (total : Int) (line : String) : List Event × Int × Bool :=
  let evs0 := configEvs line
  match validParse line with
  | .error _ => (evs0, total, true)
  | .ok vd =>
    match trainParse line with
    | .error _ => (evs0 ++ validBuild vd, total, true)
    | .ok td =>
      match seenParse line with
      | .error _ => (evs0 ++ validBuild vd ++ trainBuild td total, total, true)
      | .ok n => (evs0 ++ validBuild vd ++ trainBuild td total, total + n, false)

/-- A line on which no conversion raises. -/
def lineOk (line : String) : Bool :=
  (match validParse line with | .ok _ => true | .error _ => false) &&
  (match trainParse line with | .ok _ => true | .error _ => false) &&
  (match seenParse line with | .ok _ => true | .error _ => false)

/-- The amount a line adds to the running total (0 for non-matching lines). -/
def seenVal (line : String) : Int :=
  match seenParse line with
  | .ok n => n
  | .error _ => 0

/-- The events of the validation branch of a line. -/
def validEvs (line : String) : List Event :=
  match validParse line with
  | .ok d => validBuild d
  | .error _ => []

/-- The events of the training branch of a line, at running total `t`. -/
def trainEvs (line : String) (t : Int) : List Event :=
  match trainParse line with
  | .ok d => trainBuild d t
  | .error _ => []

/-- Feeding a list of lines, in order, to one `MarianLogParser` instance
(as the unit test and the per-pass loop do): the per-line event lists and
the final running total. -/
def feed (total : Int) : List String → List (List Event) × Int
  | [] => ([], total)
  | l :: ls =>
    let r := parse_line total l
    let rest := feed r.2.1 ls
    (r.1 :: rest.1, rest.2)

/-- The inner loop of `ConvertionJob.run` over the lines of one read pass:
every tuple of every line is written in order; an exception from
`parse_line` propagates and aborts the whole pass (the events already
yielded were already written).  Returns the written events, the final
running total, and whether the pass was aborted. -/
def runPass (total : Int) : List String → List Event × Int × Bool
  | [] => ([], total, false)
  | l :: rest =>
    let r := parse_line total l
    if r.2.2 then (r.1, r.2.1, true)
    else
      let rr := runPass r.2.1 rest
      (r.1 ++ rr.1, rr.2.1, rr.2.2)

/-! ## Position Store (`LogFileReader._load_state`) -/

/-- The state of the checkpoint file `state.pkl` at reader construction:
absent, present but unreadable/ununpicklable, or a valid pickled pair. -/
inductive Checkpoint where
  | missing : Checkpoint
  | corrupt : Checkpoint
  | valid : Int → Nat → Checkpoint
deriving DecidableEq, Repr

/-- `LogFileReader._load_state` acting on the zero-initialized position:
a missing state file leaves `(0, 0)`; a valid pickle replaces it; corrupt
data makes `pickle.load` raise, and the exception escapes the constructor
(`.error ()`). -/
def load_state : Checkpoint → Except Unit TailPos
  | .missing => .ok ⟨0, 0⟩
  | .corrupt => .error ()
  | .valid lu ll => .ok ⟨lu, ll⟩

/-- Sum of the cumulative counts contributed by a list of lines. -/
def seenSum (ls : List String) : Int := (ls.map seenVal).sum

/-- Decidable equality on `Except`, for evaluating `trainParse` results. -/
instance instDecEqExcept {e a : Type} [DecidableEq e] [DecidableEq a] :
    DecidableEq (Except e a) := fun x y =>
  match x, y with
  | .error u, .error v =>
    if h : u = v then .isTrue (by rw [h])
    else .isFalse (by intro c; injection c; exact h (by assumption))
  | .error _, .ok _ => .isFalse (fun c => Except.noConfusion c)
  | .ok _, .error _ => .isFalse (fun c => Except.noConfusion c)
  | .ok u, .ok v =>
    if h : u = v then .isTrue (by rw [h])
    else .isFalse (by intro c; injection c; exact h (by assumption))

/-! ## Theorems -/

@[simp] lemma TailPos.mk_last_update (a : Int) (b : Nat) :
    (TailPos.mk a b).last_update = a := rfl

@[simp] lemma TailPos.mk_last_line (a : Int) (b : Nat) :
    (TailPos.mk a b).last_line = b := rfl

lemma readLoop_last_update_mono (m : Int) :
    ∀ (l : List String) (i : Nat) (s : TailPos),
      s.last_update ≤ (readLoop m i s l).2.last_update := by
  intro l
  induction l with
  | nil => intro i s; simp [readLoop]
  | cons a rest ih =>
    intro i s
    simp only [readLoop]
    refine le_trans ?_ (ih (i + 1) _)
    simp only [TailPos.mk_last_update]
    split <;> omega

lemma readLoop_last_line_mono (m : Int) :
    ∀ (l : List String) (i : Nat) (s : TailPos),
      s.last_line ≤ (readLoop m i s l).2.last_line := by
  intro l
  induction l with
  | nil => intro i s; simp [readLoop]
  | cons a rest ih =>
    intro i s
    simp only [readLoop]
    refine le_trans ?_ (ih (i + 1) _)
    simp only [TailPos.mk_last_line]
    split <;> omega

/-- If every line index of the pass is already at most `last_line`, nothing
is yielded. -/
lemma readLoop_out_nil (m : Int) :
    ∀ (l : List String) (i : Nat) (s : TailPos),
      i + l.length ≤ s.last_line + 1 → (readLoop m i s l).1 = [] := by
  intro l
  induction l with
  | nil => intro i s _; simp [readLoop]
  | cons a rest ih =>
    intro i s h
    simp only [List.length_cons] at h
    simp only [readLoop]
    have hno : ¬ (s.last_line ≠ 0 ∧ s.last_line < i) := by omega
    have hll : (if i > s.last_line then i else s.last_line) = s.last_line := by
      have : ¬ i > s.last_line := by omega
      simp [this]
    rw [if_neg hno]
    apply ih
    simp only [TailPos.mk_last_line, hll]
    omega

/-- After a pass over a nonempty file, `last_line` has reached the index of
the file's final line. -/
lemma readLoop_last_line_ge (m : Int) :
    ∀ (l : List String) (i : Nat) (s : TailPos), l ≠ [] →
      i + l.length ≤ (readLoop m i s l).2.last_line + 1 := by
  intro l
  induction l with
  | nil => intro i s h; exact absurd rfl h
  | cons a rest ih =>
    intro i s _
    simp only [readLoop, List.length_cons]
    cases rest with
    | nil =>
      simp only [readLoop, List.length_nil, TailPos.mk_last_line]
      split <;> omega
    | cons b rest2 =>
      have h := ih (i + 1)
        ⟨if m > s.last_update then m else s.last_update,
         if i > s.last_line then i else s.last_line⟩ (by simp)
      simpa [Nat.add_comm, Nat.add_assoc, Nat.add_left_comm] using h

/-- Once `last_line` is a positive index `j` and the enumeration has passed
it, every remaining line is yielded. -/
lemma readLoop_all_after (m : Int) :
    ∀ (l : List String) (j : Nat) (s : TailPos),
      s.last_line = j → 1 ≤ j → (readLoop m (j + 1) s l).1 = l := by
  intro l
  induction l with
  | nil => intro j s _ _; simp [readLoop]
  | cons a rest ih =>
    intro j s hj h1
    simp only [readLoop]
    have hy : s.last_line ≠ 0 ∧ s.last_line < j + 1 := by omega
    rw [if_pos hy]
    have hll : (if j + 1 > s.last_line then j + 1 else s.last_line) = j + 1 := by
      have : j + 1 > s.last_line := by omega
      simp [this]
    have := ih (j + 1)
      ⟨if m > s.last_update then m else s.last_update,
       if j + 1 > s.last_line then j + 1 else s.last_line⟩
      (by simp [hll]) (by omega)
    simp [this]

/-- Resuming with a stored positive `last_line = k` yields exactly the lines
with index above `k`. -/
lemma readLoop_resume (m : Int) :
    ∀ (l : List String) (k i : Nat) (s : TailPos),
      s.last_line = k → 1 ≤ k → i ≤ k →
      (readLoop m i s l).1 = l.drop (k + 1 - i) := by
  intro l
  induction l with
  | nil => intro k i s _ _ _; simp [readLoop]
  | cons a rest ih =>
    intro k i s hk h1 hik
    simp only [readLoop]
    have hno : ¬ (s.last_line ≠ 0 ∧ s.last_line < i) := by omega
    rw [if_neg hno]
    have hgt : ¬ i > s.last_line := by omega
    by_cases hik2 : i = k
    · subst hik2
      have hall := readLoop_all_after m rest i
        ⟨if m > s.last_update then m else s.last_update,
         if i > s.last_line then i else s.last_line⟩
        (by simp only [TailPos.mk_last_line]; rw [if_neg hgt]; exact hk) h1
      rw [hall]
      have h2 : i + 1 - i = 1 := by omega
      simp [h2]
    · have hlt : i + 1 ≤ k := by omega
      have hres := ih k (i + 1)
        ⟨if m > s.last_update then m else s.last_update,
         if i > s.last_line then i else s.last_line⟩
        (by simp only [TailPos.mk_last_line]; rw [if_neg hgt]; exact hk) h1 hlt
      rw [hres]
      have h2 : k + 1 - i = (k - i) + 1 := by omega
      have h3 : k + 1 - (i + 1) = k - i := by omega
      rw [h2, h3, List.drop_succ_cons]

/-- A pass whose state still has `last_line = 0` yields the lines with index
at least 2 when started at index 0 (the guard `self.last_line and ...` is
falsy on lines 0 and 1, since `last_line` is still 0 when line 1 is
examined), and the lines with index at least 1 when started later. -/
lemma readLoop_zero_last_line (m : Int) :
    ∀ (l : List String) (s : TailPos) (i : Nat), s.last_line = 0 →
      (readLoop m i s l).1 = if i = 0 then l.drop 2 else l.drop 1 := by
  intro l
  induction l with
  | nil => intro s i _; simp [readLoop]
  | cons a rest ih =>
    intro s i h0
    simp only [readLoop]
    have hno : ¬ (s.last_line ≠ 0 ∧ s.last_line < i) := by omega
    rw [if_neg hno]
    by_cases hi : i = 0
    · subst hi
      have hz := ih
        ⟨if m > s.last_update then m else s.last_update,
         if 0 > s.last_line then 0 else s.last_line⟩ 1
        (by simp only [TailPos.mk_last_line]; rw [h0]; simp)
      rw [hz]
      simp
    · have hpos : 1 ≤ i := by omega
      have hall := readLoop_all_after m rest i
        ⟨if m > s.last_update then m else s.last_update,
         if i > s.last_line then i else s.last_line⟩
        (by simp only [TailPos.mk_last_line]; rw [h0]; simp; omega) hpos
      rw [hall]
      simp [hi]

/-- The state left by a pass over a nonempty file: `last_update` is raised to
the observed mtime, `last_line` to the final line index. -/
lemma readLoop_final_state (m : Int) :
    ∀ (l : List String) (i : Nat) (s : TailPos), l ≠ [] →
      (readLoop m i s l).2 =
        ⟨max s.last_update m, max s.last_line (i + l.length - 1)⟩ := by
  intro l
  induction l with
  | nil => intro i s h; exact absurd rfl h
  | cons a rest ih =>
    intro i s _
    simp only [readLoop]
    have hu : (if m > s.last_update then m else s.last_update) =
        max s.last_update m := by
      rcases le_or_lt m s.last_update with h | h
      · rw [if_neg (not_lt.mpr h), max_eq_left h]
      · rw [if_pos h, max_eq_right h.le]
    have hl : (if i > s.last_line then i else s.last_line) =
        max s.last_line i := by
      rcases le_or_lt i s.last_line with h | h
      · rw [if_neg (not_lt.mpr h), max_eq_left h]
      · rw [if_pos h, max_eq_right h.le]
    cases rest with
    | nil =>
      simp only [readLoop, List.length_cons, List.length_nil]
      rw [hu, hl]
      have h2 : i + (0 + 1) - 1 = i := by omega
      rw [h2]
    | cons b rest2 =>
      rw [hu, hl]
      have hrec := ih (i + 1) ⟨max s.last_update m, max s.last_line i⟩ (by simp)
      rw [hrec]
      simp only [TailPos.mk_last_update, TailPos.mk_last_line, List.length_cons]
      have h2 : i + 1 + (rest2.length + 1) - 1 = i + (rest2.length + 1 + 1) - 1 := by
        omega
      rw [max_assoc, max_self, max_assoc, h2]
      have h3 : max i (i + (rest2.length + 1 + 1) - 1) =
          i + (rest2.length + 1 + 1) - 1 := max_eq_right (by omega)
      rw [h3]

/-- Claim C6: a read pass over an unmodified file, immediately after a
completed read pass, yields no lines. -/
theorem reader_second_pass_empty :
    ∀ (s : TailPos) (lines : List String) (mtime : Int),
      (LogFileReader.read (LogFileReader.read s lines mtime).2 lines mtime).1 = [] := by
  intro s lines mtime
  unfold LogFileReader.read
  by_cases h1 : need_update s mtime = true
  · rw [if_pos h1]
    by_cases h2 : need_update (readLoop mtime 0 s lines).2 mtime = true
    · rw [if_pos h2]
      cases hl : lines with
      | nil => simp [readLoop]
      | cons a rest =>
        apply readLoop_out_nil
        have := readLoop_last_line_ge mtime lines 0 s (by rw [hl]; simp)
        rw [hl] at this
        omega
    · rw [if_neg h2]
  · rw [if_neg h1, if_neg h1]

/-- Claim C10: a read pass never decreases `last_line` or `last_update`,
whatever the file contents and observed modification time are. -/
theorem reader_pos_monotone :
    ∀ (s : TailPos) (lines : List String) (mtime : Int),
      s.last_update ≤ (LogFileReader.read s lines mtime).2.last_update ∧
      s.last_line ≤ (LogFileReader.read s lines mtime).2.last_line := by
  intro s lines mtime
  unfold LogFileReader.read
  by_cases h : need_update s mtime = true
  · rw [if_pos h]
    exact ⟨readLoop_last_update_mono mtime lines 0 s,
           readLoop_last_line_mono mtime lines 0 s⟩
  · rw [if_neg h]
    exact ⟨le_refl _, le_refl _⟩

/-- Claim C2 (amended): a first-time read pass (zero-valued `TailPos`) yields
exactly the lines with zero-based index strictly greater than 1; both line 0
and line 1 are skipped, because `last_line` is still 0 (falsy) when line 1 is
examined and is only raised to 1 afterwards. -/
theorem first_pass_skips_lines_zero_and_one (l : List String) (m : Int) :
    (LogFileReader.read ⟨0, 0⟩ l m).1 = l.drop 2 := by
  unfold LogFileReader.read
  have h : need_update ⟨0, 0⟩ m = true := by simp [need_update]
  rw [if_pos h, readLoop_zero_last_line m l ⟨0, 0⟩ 0 rfl]
  simp

/-- Claim C2 (counterexample): on the two-line file `["a", "b"]` a first-time
read yields nothing, not `["b"]` as the claim (yield every index > 0)
requires. -/
theorem first_pass_cex :
    (LogFileReader.read ⟨0, 0⟩ ["a", "b"] 1).1 = [] ∧
    (LogFileReader.read ⟨0, 0⟩ ["a", "b"] 1).1 ≠ ["b"] := by decide

/-- Claim C1 (amended): with a pass after the initial write (mtime `t1`) and
a pass after an append-only write (mtime `t2 > t1`), the two passes combined
yield exactly the lines of the final file with index at least 2, each once,
in file order — the final file's lines 0 and 1 are never yielded. -/
theorem resumption_append_only (l1 l2 : List String) (t1 t2 : Int)
    (h : t1 < t2) :
    (LogFileReader.read ⟨0, 0⟩ l1 t1).1 ++
      (LogFileReader.read (LogFileReader.read ⟨0, 0⟩ l1 t1).2 (l1 ++ l2) t2).1 =
    (l1 ++ l2).drop 2 := by
  unfold LogFileReader.read
  have hnu1 : need_update ⟨0, 0⟩ t1 = true := by simp [need_update]
  rw [if_pos hnu1]
  cases l1 with
  | nil =>
    simp only [readLoop]
    have hnu2 : need_update ⟨0, 0⟩ t2 = true := by simp [need_update]
    rw [if_pos hnu2, readLoop_zero_last_line t2 ([] ++ l2) ⟨0, 0⟩ 0 rfl]
    simp
  | cons a rest =>
    rw [readLoop_final_state t1 (a :: rest) 0 ⟨0, 0⟩ (by simp)]
    rw [readLoop_zero_last_line t1 (a :: rest) ⟨0, 0⟩ 0 rfl]
    have hnc : ¬ ((⟨max (0 : Int) t1,
        max 0 (0 + (a :: rest).length - 1)⟩ : TailPos).last_update > 0 ∧
        (⟨max (0 : Int) t1,
        max 0 (0 + (a :: rest).length - 1)⟩ : TailPos).last_update ≥ t2) := by
      simp only [TailPos.mk_last_update]
      rcases max_choice (0 : Int) t1 with hm | hm <;> rw [hm] <;> omega
    have hnu2 : need_update
        ⟨max (0 : Int) t1, max 0 (0 + (a :: rest).length - 1)⟩ t2 = true := by
      unfold need_update
      rw [if_neg hnc]
    rw [if_pos hnu2]
    cases rest with
    | nil =>
      rw [readLoop_zero_last_line t2 ([a] ++ l2)
        ⟨max 0 t1, max 0 (0 + (a :: ([] : List String)).length - 1)⟩ 0 (by simp)]
      simp
    | cons c rest2 =>
      rw [readLoop_resume t2 ((a :: c :: rest2) ++ l2) (rest2.length + 1) 0
        ⟨max 0 t1, max 0 (0 + (a :: c :: rest2).length - 1)⟩
        (by simp only [TailPos.mk_last_line, List.length_cons]
            rw [Nat.zero_max]
            omega)
        (by omega) (by omega)]
      have hlen : rest2.length + 1 + 1 - 0 = (a :: c :: rest2).length := by simp
      rw [hlen, List.drop_left]
      have hle : 2 ≤ (a :: c :: rest2).length := by
        simp only [List.length_cons]
        omega
      rw [List.drop_append_of_le_length hle]
      simp

/-- Claim C1 (witness for the amended theorem): a three-line initial file
appended with one more line; the combined passes yield lines 2 and 3. -/
theorem resumption_append_only_witness :
    (LogFileReader.read ⟨0, 0⟩ ["a", "b", "c"] 1).1 ++
      (LogFileReader.read (LogFileReader.read ⟨0, 0⟩ ["a", "b", "c"] 1).2
        (["a", "b", "c"] ++ ["d"]) 2).1 = (["a", "b", "c"] ++ ["d"]).drop 2 :=
  resumption_append_only ["a", "b", "c"] ["d"] 1 2 (by decide)

/-- Claim C1 (counterexample): initial file `["a"]`, appended to `["a", "b"]`.
The two passes combined yield nothing at all, not the final file's lines as
the claim requires. -/
theorem resumption_cex :
    (LogFileReader.read ⟨0, 0⟩ ["a"] 1).1 ++
      (LogFileReader.read (LogFileReader.read ⟨0, 0⟩ ["a"] 1).2 ["a", "b"] 2).1
      = [] ∧
    (LogFileReader.read ⟨0, 0⟩ ["a"] 1).1 ++
      (LogFileReader.read (LogFileReader.read ⟨0, 0⟩ ["a"] 1).2 ["a", "b"] 2).1
      ≠ ["a", "b"] := by decide

/-! ## Parser theorems -/

/-- Claim C4: the validation line from the spec yields exactly the two
scalar events `valid/ce-mean-words` and `valid/ce-mean-words_stalled` (the
stalled value defaulting to 0), and the `stalled 4 times` line at step
775000 yields a stalled value of 4. -/
theorem valid_line_concrete_events :
    parse_line 0 "[2019-03-25 16:37:33] [valid] Ep. 1 : Up. 5000 : ce-mean-words : 5.21277 : new best" =
      ([⟨"scalar", some 1553531853, some 5000, "valid/ce-mean-words",
         .num (mkRat 521277 100000)⟩,
        ⟨"scalar", some 1553531853, some 5000, "valid/ce-mean-words_stalled",
         .num (mkRat 0 1)⟩], 0, false) ∧
    parse_line 0 "[2019-04-10 13:18:39] [valid] Ep. 9 : Up. 775000 : perplexity : 4.24812 : stalled 4 times (last best: 4.24112)" =
      ([⟨"scalar", some 1554902319, some 775000, "valid/perplexity",
         .num (mkRat 424812 100000)⟩,
        ⟨"scalar", some 1554902319, some 775000, "valid/perplexity_stalled",
         .num (mkRat 4 1)⟩], 0, false) := by
  decide

/-- Claim C5: the training line from the spec, at running total 0, yields
exactly the five scalar events `train/epoch = 1`, `train/Cost = 7.95987511`,
`train/update_sent = 1269755`, `train/total_sent = 1269755` and
`train/learn_rate = 0.0000125`, all at step 1000. -/
theorem train_line_concrete_events :
    parse_line 0 "[2019-03-25 14:51:54] Ep. 1 : Up. 1000 : Sen. 1,269,755 : Cost 7.95987511 : Time 785.53s : 17289.59 words/s : L.r. 1.2500e-05" =
      ([⟨"scalar", some 1553525514, some 1000, "train/epoch", .num (mkRat 1 1)⟩,
        ⟨"scalar", some 1553525514, some 1000, "train/Cost",
         .num (mkRat 795987511 100000000)⟩,
        ⟨"scalar", some 1553525514, some 1000, "train/update_sent",
         .num (mkRat 1269755 1)⟩,
        ⟨"scalar", some 1553525514, some 1000, "train/total_sent",
         .num (mkRat 1269755 1)⟩,
        ⟨"scalar", some 1553525514, some 1000, "train/learn_rate",
         .num (mkRat 1 80000)⟩], 0, false) := by
  decide

/-- Claim C7 (amended): a missing checkpoint loads as the zero-valued
`TailPosition` without error and a valid one loads its stored pair, but a
malformed/unreadable checkpoint makes `pickle.load` raise and the exception
propagates out of the reader's constructor — it is not treated as "start
from the beginning". -/
theorem load_state_behavior :
    load_state Checkpoint.missing = .ok ⟨0, 0⟩ ∧
    (∀ (lu : Int) (ll : Nat), load_state (Checkpoint.valid lu ll) = .ok ⟨lu, ll⟩) ∧
    load_state Checkpoint.corrupt = .error () :=
  ⟨rfl, fun _ _ => rfl, rfl⟩

/-- Claim C7 (counterexample): loading a malformed checkpoint does not
return the zero-valued position — it raises. -/
theorem load_state_corrupt_cex :
    load_state Checkpoint.corrupt ≠ .ok ⟨0, 0⟩ ∧
    load_state Checkpoint.corrupt = .error () :=
  ⟨fun h => Except.noConfusion h, rfl⟩

/-- Text-kind filter of the config branch is the branch itself. -/
lemma filter_text_configEvs (line : String) :
    (configEvs line).filter (fun e => e.kind == "text") = configEvs line := by
  unfold configEvs
  cases configPair line <;> rfl

/-- The validation branch yields no text events. -/
lemma filter_text_validBuild (vd : Option ValidData) :
    (validBuild vd).filter (fun e => e.kind == "text") = [] := by
  cases vd <;> rfl

/-- The training branch yields no text events. -/
lemma filter_text_trainBuild (td : Option TrainData) (t : Int) :
    (trainBuild td t).filter (fun e => e.kind == "text") = [] := by
  cases td <;> rfl

/-- Claim C9 (amended): for every line and running total, the text events
`parse_line` yields are exactly the config branch's output, and that branch
yields at most one text event — only the first key/value pair found by
`config_re.search`, however many pairs the line carries. -/
theorem config_single_text_event (total : Int) (line : String) :
    (parse_line total line).1.filter (fun e => e.kind == "text") =
      configEvs line ∧
    (configEvs line).length ≤ 1 := by
  constructor
  · cases hv : validParse line with
    | error e => simp [parse_line, hv, filter_text_configEvs]
    | ok vd =>
      cases ht : trainParse line with
      | error e =>
        simp [parse_line, hv, ht, List.filter_append, filter_text_configEvs,
          filter_text_validBuild]
      | ok td =>
        cases hs : seenParse line with
        | error e =>
          simp [parse_line, hv, ht, hs, List.filter_append,
            filter_text_configEvs, filter_text_validBuild,
            filter_text_trainBuild]
        | ok n =>
          simp [parse_line, hv, ht, hs, List.filter_append,
            filter_text_configEvs, filter_text_validBuild,
            filter_text_trainBuild]
  · unfold configEvs
    cases configPair line <;> simp

/-- Claim C9 (counterexample): the line
`"[config] beam-size: 6 mini-batch: 64"` carries two key/value pairs — the
parser's own config matcher recognizes `mini-batch: 64` when it is the
line's first pair — yet `parse_line` yields only one text event, for the
first pair. -/
theorem config_single_text_event_cex :
    (parse_line 0 "[config] beam-size: 6 mini-batch: 64").1 =
      [⟨"text", none, none, "beam-size", .str "6"⟩] ∧
    (parse_line 0 "[config] mini-batch: 64").1 =
      [⟨"text", none, none, "mini-batch", .str "64"⟩] := by decide

/-- Claim C8 (amended): a line on which no matcher fires and no conversion
raises is skipped and the pass continues with the remaining lines; but when
`parse_line` raises on a line (e.g. a `[valid]`-matching line whose leading
tokens are not a parseable timestamp), the exception propagates out of
`ConvertionJob.run`'s loop: the pass ends with only the events yielded
before the error, and the remaining lines are not processed. -/
theorem parse_error_aborts_pass :
    (∀ (total : Int) (l : String) (rest : List String),
       parse_line total l = ([], total, false) →
       runPass total (l :: rest) = runPass total rest) ∧
    (∀ (total : Int) (l : String) (rest : List String),
       (parse_line total l).2.2 = true →
       (runPass total (l :: rest)).1 = (parse_line total l).1 ∧
       (runPass total (l :: rest)).2.2 = true) := by
  constructor
  · intro total l rest h
    simp [runPass, h]
  · intro total l rest h
    simp [runPass, h]

/-- Claim C8 (witness): a non-matching line is skipped with the pass
continuing, and the pass over the bad line stops with no events. -/
theorem parse_error_aborts_pass_witness :
    runPass 0 ["hello world",
      "[2019-03-25 16:37:33] [valid] Ep. 1 : Up. 5000 : ce-mean-words : 5.21277 : new best"] =
      runPass 0
        ["[2019-03-25 16:37:33] [valid] Ep. 1 : Up. 5000 : ce-mean-words : 5.21277 : new best"] ∧
    (runPass 0 ["[xxxx] [valid] Ep. 1 : Up. 5 : perplexity : 4.5 : new best",
      "[2019-03-25 16:37:33] [valid] Ep. 1 : Up. 5000 : ce-mean-words : 5.21277 : new best"]).1 =
      (parse_line 0 "[xxxx] [valid] Ep. 1 : Up. 5 : perplexity : 4.5 : new best").1 :=
  ⟨parse_error_aborts_pass.1 0 "hello world"
      ["[2019-03-25 16:37:33] [valid] Ep. 1 : Up. 5000 : ce-mean-words : 5.21277 : new best"]
      (by decide),
   (parse_error_aborts_pass.2 0 "[xxxx] [valid] Ep. 1 : Up. 5 : perplexity : 4.5 : new best"
      ["[2019-03-25 16:37:33] [valid] Ep. 1 : Up. 5000 : ce-mean-words : 5.21277 : new best"]
      (by decide)).1⟩

/-- Claim C8 (counterexample): a `[valid]`-matching line with an
unparseable timestamp aborts the whole pass — the following well-formed
line, which alone yields two events, contributes nothing. -/
theorem parse_error_aborts_pass_cex :
    runPass 0 ["[xxxx] [valid] Ep. 1 : Up. 5 : perplexity : 4.5 : new best",
      "[2019-03-25 16:37:33] [valid] Ep. 1 : Up. 5000 : ce-mean-words : 5.21277 : new best"] =
      ([], 0, true) ∧
    (parse_line 0
      "[2019-03-25 16:37:33] [valid] Ep. 1 : Up. 5000 : ce-mean-words : 5.21277 : new best").1 ≠
      [] := by decide

/-- On a line where no conversion raises, `parse_line` yields the three
branches' events in source order and adds the line's cumulative count to
the running total. -/
lemma parse_line_ok (t : Int) (line : String) (h : lineOk line = true) :
    parse_line t line =
      (configEvs line ++ validEvs line ++ trainEvs line t,
       t + seenVal line, false) := by
  unfold lineOk at h
  cases hv : validParse line with
  | error e => rw [hv] at h; simp at h
  | ok vd =>
    cases ht : trainParse line with
    | error e => rw [hv, ht] at h; simp at h
    | ok td =>
      cases hs : seenParse line with
      | error e => rw [hv, ht, hs] at h; simp at h
      | ok n => simp [parse_line, validEvs, trainEvs, seenVal, hv, ht, hs]

/-- Generalized running-total lemma: feeding lines to the parser starting
from running total `t`, the `train/total_sent` event of the `i`-th line (a
training-step line) carries that line's own sentence count plus `t` plus
the cumulative counts of all strictly prior lines. -/
lemma feed_total_sent (lines : List String) :
    ∀ (t : Int) (i : Nat), i < lines.length →
      (∀ l ∈ lines, lineOk l = true) →
      ∀ td : TrainData, trainParse (lines.getD i "") = .ok (some td) →
      (⟨"scalar", some td.wt, some td.update, "train/total_sent",
        .num ((td.sentences + (t + seenSum (lines.take i)) : Int) : Rat)⟩ : Event)
        ∈ (feed t lines).1.getD i [] := by
  induction lines with
  | nil => intro t i hi; exact absurd hi (by simp)
  | cons l ls ih =>
    intro t i hi hok td htd
    have hokl : lineOk l = true := hok l (List.mem_cons_self l ls)
    cases i with
    | zero =>
      simp only [feed, parse_line_ok t l hokl, List.getD_cons_zero]
      have htd0 : trainParse l = .ok (some td) := by simpa using htd
      apply List.mem_append_right
      simp [trainEvs, htd0, trainBuild, seenSum]
    | succ j =>
      simp only [feed, parse_line_ok t l hokl, List.getD_cons_succ]
      have hi2 : j < ls.length := by simpa using hi
      have hok2 : ∀ x ∈ ls, lineOk x = true := fun x hx =>
        hok x (List.mem_cons_of_mem l hx)
      have htd2 : trainParse (ls.getD j "") = .ok (some td) := by simpa using htd
      have hmem := ih (t + seenVal l) j hi2 hok2 td htd2
      have harith : (td.sentences + (t + seenVal l + seenSum (List.take j ls)) : Int) =
          td.sentences + (t + seenSum (List.take (j + 1) (l :: ls))) := by
        simp only [List.take_succ_cons, seenSum, List.map_cons, List.sum_cons]
        ring
      rw [← harith]
      exact hmem

/-- Claim C3: feeding a list of lines (on which no conversion raises, as is
the case for cumulative-count and training-step lines) in order to one
parser instance, the `train/total_sent` value emitted for the `i`-th line
equals that line's own per-step sentence count plus the sum of the
cumulative counts from strictly prior lines. -/
theorem running_total_correct (lines : List String) (i : Nat)
    (hi : i < lines.length) (hok : ∀ l ∈ lines, lineOk l = true)
    (td : TrainData) (htd : trainParse (lines.getD i "") = .ok (some td)) :
    (⟨"scalar", some td.wt, some td.update, "train/total_sent",
      .num ((td.sentences + seenSum (lines.take i) : Int) : Rat)⟩ : Event)
      ∈ (feed 0 lines).1.getD i [] := by
  have h := feed_total_sent lines 0 i hi hok td htd
  simpa using h

/-- Claim C3 (witness): a `Seen 100` line followed by the concrete training
line; its `train/total_sent` value is `1269755 + 100`. -/
theorem running_total_correct_witness :
    (⟨"scalar", some 1553525514, some 1000, "train/total_sent",
      .num ((1269755 + seenSum (List.take 1
        ["[2019-03-25 14:00:00] Seen 100 sentences",
         "[2019-03-25 14:51:54] Ep. 1 : Up. 1000 : Sen. 1,269,755 : Cost 7.95987511 : Time 785.53s : 17289.59 words/s : L.r. 1.2500e-05"]) : Int) : Rat)⟩ : Event)
      ∈ (feed 0
        ["[2019-03-25 14:00:00] Seen 100 sentences",
         "[2019-03-25 14:51:54] Ep. 1 : Up. 1000 : Sen. 1,269,755 : Cost 7.95987511 : Time 785.53s : 17289.59 words/s : L.r. 1.2500e-05"]).1.getD 1 [] :=
  running_total_correct
    ["[2019-03-25 14:00:00] Seen 100 sentences",
     "[2019-03-25 14:51:54] Ep. 1 : Up. 1000 : Sen. 1,269,755 : Cost 7.95987511 : Time 785.53s : 17289.59 words/s : L.r. 1.2500e-05"]
    1 (by decide) (by decide)
    ⟨1553525514, 1000, mkRat 1 1, 1269755, "Cost", mkRat 795987511 100000000,
     mkRat 1 80000⟩
    (by decide)
